import Mathlib

/-!
Shallow embedding of `uas_mood/utils/dataset.py` and the architecture of
`WideResNetAE` from `uas_mood/models/models.py`, with theorems settling the
specification claims about them.

Modelling conventions:
* a 2-D slice (numpy array / torch tensor of shape `[h, w]`) is a
  `List (List ℚ)`; a scan of shape `[slices, h, w]` is a list of slices;
* Python exceptions are an explicit `Except PyErr` result;
* `os.cpu_count()` is a parameter `cpu_count : Int` (Python subtraction can
  go below zero);
* functions that read files return, next to their result, the list of files
  they read, so that "fails before any file is loaded" is expressible;
* the file-processing helpers `process_scan` and `load_segmentation` live in
  `uas_mood/utils/data_utils.py`, which is not part of the sources; they are
  abstract parameters `g : FPath → Scan` throughout.
-/

abbrev FPath := String

abbrev Img := List (List ℚ)

abbrev Scan := List Img

/-- The Python exceptions that the embedded code can raise. -/
inductive PyErr where
  | assertionError
  | valueError
  | indexError
deriving DecidableEq, Repr

/-- Embedding of `np.array_split(xs, n)`: split `xs` into `n` parts, the first
`len(xs) % n` parts of size `len(xs) // n + 1` and the rest of size
`len(xs) // n` (recursive formulation; equals numpy's closed form because the
remainder invariant is preserved at each step). `n = 0` raises in numpy and is
mapped to `[]` here; `load_to_ram` guards against it before the call. -/
def array_split {α : Type} : List α → Nat → List (List α)
  | _, 0 => []
  | xs, n + 1 =>
      let size :=
        if xs.length % (n + 1) = 0 then xs.length / (n + 1)
        else xs.length / (n + 1) + 1
      xs.take size :: array_split (xs.drop size) n

/-- The batch list built in `PreloadDataset.load_to_ram`:
`[list(p) for p in np.array_split(paths, num_cpus) if len(p) > 0]`. -/
def batches_of {α : Type} (paths : List α) (num_cpus : Nat) : List (List α) :=
  (array_split paths num_cpus).filter (fun p => !p.isEmpty)

/-- Embedding of `PreloadDataset.load_to_ram`.  `load_batch` is the (per
subclass) static method, `cpu_count` the value of `os.cpu_count()`.  The code
sets `num_cpus = os.cpu_count() - 4` unconditionally; a non-positive count
makes `np.array_split` (and `Pool`) raise `ValueError` before anything is
read.  The second component is the list of files actually read. -/
def load_to_ram {α : Type} (load_batch : List FPath → α) (paths : List FPath)
    (cpu_count : Int) : Except PyErr (List α) × List FPath :=
  let num_cpus : Int := cpu_count - 4
  if num_cpus ≤ 0 then
    (Except.error PyErr.valueError, [])
  else
    let batches := batches_of paths num_cpus.toNat
    (Except.ok (batches.map load_batch), batches.flatten)

/-- Embedding of `TrainDataset.load_batch` (and textually also
`PatchSwapDataset.load_batch`, whose extra NaN check only prints): map
`process_scan` (abstract `g`) over the files of the batch. -/
def TrainDataset.load_batch (g : FPath → Scan) (files : List FPath) : List Scan :=
  files.map g

/-- Embedding of `TrainDataset.__init__`: flatten the per-batch results to a
scan list, then flatten scans to slices (`self.samples`). -/
def TrainDataset.init (g : FPath → Scan) (files : List FPath) (cpu_count : Int) :
    Except PyErr (List Img) × List FPath :=
  match load_to_ram (TrainDataset.load_batch g) files cpu_count with
  | (Except.error e, tr) => (Except.error e, tr)
  | (Except.ok res, tr) => (Except.ok res.flatten.flatten, tr)

/-- The sequential reference for preloading, following the spec's words: apply
`load_batch` to the files one by one, in their original order.  For
`TrainDataset.load_batch` this is mapping `process_scan` over the files. -/
def sequentialLoad (g : FPath → Scan) (files : List FPath) : List Scan :=
  files.map g

/-- Embedding of Python `str.endswith`: compare the last `len(suf)` characters
(`False` when `suf` is longer than `s`, since then the lengths differ). -/
def pyEndsWith (s suf : String) : Bool :=
  s.data.drop (s.data.length - suf.data.length) == suf.data

/-- Embedding of Python `str.replace(pat, repl)` on character lists: replace
every non-overlapping occurrence of `pat`, scanning left to right.  `fuel`
makes the recursion structural; `fuel = length of the list` suffices because
each step consumes at least one character (`pyReplace` only calls this with a
non-empty `pat`). -/
def pyReplaceAux (pat repl : List Char) : Nat → List Char → List Char
  | 0, l => l
  | _ + 1, [] => []
  | fuel + 1, c :: cs =>
      if pat ≠ [] ∧ (c :: cs).take pat.length = pat then
        repl ++ pyReplaceAux pat repl fuel ((c :: cs).drop pat.length)
      else
        c :: pyReplaceAux pat repl fuel cs

/-- Embedding of Python `s.replace(pat, repl)` on strings. -/
def pyReplace (s pat repl : String) : String :=
  String.mk (pyReplaceAux pat.data repl.data s.data.length s.data)

/-- The dictionary returned by `TestDataset.load_batch`. -/
structure TestBatch where
  samples : List (FPath × Scan)
  segmentations : List (FPath × Scan)

/-- Embedding of `TestDataset.load_batch`: for each file, the processed scan
paired with its path, and the segmentation whose path is the sample path with
`"test"` replaced by `"test_label/pixel"` (`str.replace`, hence every
occurrence).  `process_scan` and `load_segmentation` are abstract `g`,
`gseg`. -/
def TestDataset.load_batch (g gseg : FPath → Scan) (files : List FPath) :
    TestBatch where
  samples := files.map (fun f => (f, g f))
  segmentations := files.map (fun f =>
    (pyReplace f "test" "test_label/pixel",
     gseg (pyReplace f "test" "test_label/pixel")))

/-- The state built by `TestDataset.__init__`: the two parallel lists. -/
structure TestDS where
  samples : List (FPath × Scan)
  segmentations : List (FPath × Scan)

/-- Embedding of `TestDataset.__init__`. -/
def TestDataset.init (g gseg : FPath → Scan) (files : List FPath)
    (cpu_count : Int) : Except PyErr TestDS × List FPath :=
  match load_to_ram (TestDataset.load_batch g gseg) files cpu_count with
  | (Except.error e, tr) => (Except.error e, tr)
  | (Except.ok res, tr) =>
      (Except.ok { samples := (res.map TestBatch.samples).flatten
                 , segmentations := (res.map TestBatch.segmentations).flatten },
       tr)

/-- Embedding of `TestDataset.__getitem__`:
`return self.samples[idx], self.segmentations[idx]`. -/
def TestDataset.getitem (ds : TestDS) (idx : Nat) :
    (FPath × Scan) × (FPath × Scan) :=
  (ds.samples.getD idx ("", []), ds.segmentations.getD idx ("", []))

/-- The state built by `PatchSwapDataset.__init__`.  numpy arrays are
reference values: `heap` holds the slice buffers and `samples` the buffer
index of each entry of the Python list `self.samples`, so that `.copy()` and
possible in-place writes are expressible. -/
structure PatchSwapDS where
  heap : List Img
  samples : List Nat
  n_slices : Nat
  n_scans : Nat
  data : String

/-- Embedding of `PatchSwapDataset.load_batch`: like `TrainDataset.load_batch`
(its extra NaN check only prints the file name). -/
def PatchSwapDataset.load_batch (g : FPath → Scan) (files : List FPath) :
    List Scan :=
  files.map g

/-- The state-building tail of `PatchSwapDataset.__init__`, applied to the
flattened scan list: `self.n_slices = samples[0].shape[0]` (an `IndexError`
when no scan was loaded), `self.n_scans = len(samples)`, `self.samples` the
slices of all scans in order. -/
def PatchSwapDataset.mkDS (scans : List Scan) (data : String) :
    Except PyErr PatchSwapDS :=
  match scans with
  | [] => Except.error PyErr.indexError
  | s0 :: rest =>
      Except.ok { heap := (s0 :: rest).flatten
                , samples := List.range (s0 :: rest).flatten.length
                , n_slices := s0.length
                , n_scans := (s0 :: rest).length
                , data := data }

/-- Embedding of `PatchSwapDataset.__init__`: the `assert data in ["brain",
"abdom"]` comes first, so on an invalid `data` nothing is loaded and no state
is built. -/
def PatchSwapDataset.init (g : FPath → Scan) (files : List FPath)
    (cpu_count : Int) (data : String) : Except PyErr PatchSwapDS × List FPath :=
  if data = "brain" ∨ data = "abdom" then
    match load_to_ram (PatchSwapDataset.load_batch g) files cpu_count with
    | (Except.error e, tr) => (Except.error e, tr)
    | (Except.ok res, tr) => (PatchSwapDataset.mkDS res.flatten data, tr)
  else
    (Except.error PyErr.assertionError, [])

/-- Modelled from the spec: `patch_exchange` comes from
`uas_mood/utils/artificial_anomalies.py`, which is not among the sources.
Per the spec ("generation of artificial lesions via polygonal patch-exchange
between two scans") and the `create_anomaly` docstring ("a sample where one
patch is switched from another sample with a random interpolation factor"),
inside the mask it blends the second image into the first with interpolation
factor `t` and returns the corrupted image together with the label mask
recording the interpolation factor on the patch. -/
def patch_exchange (t : ℚ) (img1 img2 : Img) (mask : List (List Bool)) :
    Img × Img :=
  ( List.zipWith
      (fun r1 r2m =>
        List.zipWith (fun p1 p2b => if p2b.2 then (1 - t) * p1 + t * p2b.1 else p1)
          r1 (List.zipWith Prod.mk r2m.1 r2m.2))
      img1 (List.zipWith Prod.mk img2 mask)
  , List.zipWith
      (fun r1 rm => List.zipWith (fun _ b => if b then t else (0 : ℚ)) r1 rm)
      img1 mask )

/-- Embedding of `PatchSwapDataset.create_anomaly`.  `sample_complete_mask`
(also from the missing `artificial_anomalies.py`) draws a random polygonal
mask; the mask and the random interpolation factor `t` are parameters.  The
`torch.from_numpy` conversions do not change values. -/
def PatchSwapDataset.create_anomaly (t : ℚ) (mask : List (List Bool))
    (img1 img2 : Img) : Img × Img :=
  patch_exchange t img1 img2 mask

/-- Tensor `unsqueeze(0)`: prepend a channel dimension of size 1. -/
def unsqueeze (img : Img) : List Img := [img]

/-- Embedding of `PatchSwapDataset.__getitem__`.  `other_scan` is the value
drawn by `random.randint(0, self.n_scans - 1)`; `t` and `mask` are the random
draws inside `create_anomaly`.  `sample = self.samples[idx].copy()` allocates
a fresh buffer; conservatively, `create_anomaly` is allowed to write its
result into that fresh buffer in place (numpy aliasing), which is the
strongest mutation the callee could perform on the copied argument. -/
def PatchSwapDataset.getitem (ds : PatchSwapDS) (idx : Nat) (other_scan : Nat)
    (t : ℚ) (mask : List (List Bool)) :
    (List Img × List Img) × PatchSwapDS :=
  let srcAddr := ds.samples.getD idx 0
  let copyAddr := ds.heap.length
  let heap1 := ds.heap ++ [ds.heap.getD srcAddr []]
  let i_slice := idx % ds.n_slices
  let other_idx := other_scan * ds.n_slices + i_slice
  let otherAddr := ds.samples.getD other_idx 0
  let other_sample := heap1.getD otherAddr []
  let pe := PatchSwapDataset.create_anomaly t mask (heap1.getD copyAddr []) other_sample
  let heap2 := heap1.set copyAddr pe.1
  ((unsqueeze pe.1, unsqueeze pe.2), { ds with heap := heap2 })

/-- Embedding of `get_train_files`: the glob result is abstract (`glob` applied
to the pattern built from `root` and `body_region`); the assertion on
`body_region` comes first. -/
def get_train_files (glob : String → List FPath) (root body_region : String) :
    Except PyErr (List FPath) :=
  if body_region = "brain" ∨ body_region = "abdom" then
    Except.ok (glob (root ++ "/" ++ body_region ++ "/train/?????.nii.gz"))
  else
    Except.error PyErr.assertionError

/-- Embedding of `get_test_files`: assertion on `body_region`, glob, then drop
the files ending in `"_segmentation.nii.gz"`. -/
def get_test_files (glob : String → List FPath) (root body_region : String) :
    Except PyErr (List FPath) :=
  if body_region = "brain" ∨ body_region = "abdom" then
    Except.ok ((glob (root ++ "/" ++ body_region ++ "/test/?????_*.nii.gz")).filter
      (fun f => !pyEndsWith f "_segmentation.nii.gz"))
  else
    Except.error PyErr.assertionError

/-- A tiny concrete dataset for evaluating the theorems: two scans of one
1x1 slice each. -/
def demoScans : List Scan := [[[[(0 : ℚ)]]], [[[(1 : ℚ)]]]]

/-- The `PatchSwapDS` state that `PatchSwapDataset.mkDS` builds from
`demoScans`. -/
def demoDS : PatchSwapDS where
  heap := [[[(0 : ℚ)]], [[(1 : ℚ)]]]
  samples := List.range 2
  n_slices := 1
  n_scans := 2
  data := "brain"

/- ### WideResNetAE architecture (`uas_mood/models/models.py`) -/

/-- One `conv_group` / `upsample_group` of `WideResNetAE` (all are built with
`n = 1`, i.e. a single block): input channels, output channels, stride. -/
structure ConvGroup where
  cin : Nat
  cout : Nat
  stride : Nat

/-- The `channels` list of `WideResNetAE.__init__`. -/
def wrnChannels (widen_factor : Nat) : List Nat :=
  [16, 16 * widen_factor, 32 * widen_factor, 64 * widen_factor,
   64 * widen_factor, 64 * widen_factor, 64 * widen_factor]

/-- The encoder groups of `WideResNetAE.__init__` (the stride-1 group plus the
stride-2 groups, one more for `inp_size > 128` and one more for
`inp_size > 256`).  The initial `conv2d(1, channels[0], 3)` is accounted for
separately in `encOutSize`. -/
def encGroups (w inp_size : Nat) : List ConvGroup :=
  let c := wrnChannels w
  [ ⟨c.getD 0 0, c.getD 1 0, 1⟩, ⟨c.getD 1 0, c.getD 2 0, 2⟩,
    ⟨c.getD 2 0, c.getD 3 0, 2⟩, ⟨c.getD 3 0, c.getD 4 0, 2⟩ ]
  ++ (if 128 < inp_size then [⟨c.getD 4 0, c.getD 5 0, 2⟩] else [])
  ++ (if 256 < inp_size then [⟨c.getD 5 0, c.getD 6 0, 2⟩] else [])

/-- The decoder groups of `WideResNetAE.__init__` (branch on `inp_size`, then
the two final upsample groups down to 1 channel). -/
def decGroups (w inp_size : Nat) : List ConvGroup :=
  let c := wrnChannels w
  (if 256 < inp_size then
    [ ⟨c.getD 6 0, c.getD 2 0, 2⟩, ⟨c.getD 2 0, c.getD 2 0, 2⟩,
      ⟨c.getD 2 0, c.getD 1 0, 2⟩ ]
   else if 128 < inp_size then
    [ ⟨c.getD 5 0, c.getD 2 0, 2⟩, ⟨c.getD 2 0, c.getD 1 0, 2⟩ ]
   else
    [ ⟨c.getD 4 0, c.getD 1 0, 2⟩ ])
  ++ [ ⟨c.getD 1 0, c.getD 0 0, 2⟩, ⟨c.getD 0 0, 1, 2⟩ ]

/-- Spatial output size of `conv2d(..., kernel_size, stride)` from
`models.py`, which uses `padding = kernel_size // 2`:
`out = (s + 2 * pad - kernel_size) / stride + 1` (floor division). -/
def conv2dOut (kernel_size stride s : Nat) : Nat :=
  (s + 2 * (kernel_size / 2) - kernel_size) / stride + 1

/-- Spatial output size of `BasicBlock`: `conv1` is 3x3 with the block's
stride, `conv2` is 3x3 stride 1. -/
def basicBlockOut (stride s : Nat) : Nat :=
  conv2dOut 3 1 (conv2dOut 3 stride s)

/-- Spatial output size of `UpsampleBlock`: 3x3 stride-1 conv, bilinear
upsample by `scale_factor = stride`, 3x3 stride-1 conv. -/
def upsampleBlockOut (stride s : Nat) : Nat :=
  conv2dOut 3 1 (conv2dOut 3 1 s * stride)

/-- Spatial size after `self.enc` (initial 3x3 conv, then the groups). -/
def encOutSize (w inp_size s : Nat) : Nat :=
  (encGroups w inp_size).foldl (fun a gr => basicBlockOut gr.stride a)
    (conv2dOut 3 1 s)

/-- Spatial size after `self.dec`. -/
def decOutSize (w inp_size s : Nat) : Nat :=
  (decGroups w inp_size).foldl (fun a gr => upsampleBlockOut gr.stride a) s

/-- Spatial size after `WideResNetAE.forward` (the final `torch.sigmoid` is
elementwise and keeps the shape). -/
def forwardOutSize (w inp_size : Nat) : Nat :=
  decOutSize w inp_size (encOutSize w inp_size inp_size)

/-- Number of stride-2 downsampling groups in the encoder. -/
def downCount (w inp_size : Nat) : Nat :=
  ((encGroups w inp_size).filter (fun gr => gr.stride == 2)).length

/-- Number of stride-2 upsampling groups in the decoder. -/
def upCount (w inp_size : Nat) : Nat :=
  ((decGroups w inp_size).filter (fun gr => gr.stride == 2)).length

/-- Output channel count of the decoder (the `cout` of its last group). -/
def outChannels (w inp_size : Nat) : Nat :=
  ((decGroups w inp_size).getLastD ⟨0, 0, 0⟩).cout

/- ### Partitioning lemmas -/

theorem array_split_join {α : Type} :
    ∀ (n : Nat) (xs : List α), (array_split xs (n + 1)).flatten = xs := by
  intro n
  induction n with
  | zero =>
      intro xs
      simp [array_split, Nat.mod_one, Nat.div_one, List.take_length]
  | succ m ih =>
      intro xs
      rw [array_split, List.flatten_cons, ih]
      exact List.take_append_drop _ xs

theorem join_filter_not_isEmpty {α : Type} (l : List (List α)) :
    (l.filter (fun p => !p.isEmpty)).flatten = l.flatten := by
  induction l with
  | nil => rfl
  | cons x xs ih =>
      cases x with
      | nil => simpa [List.filter_cons] using ih
      | cons a as => simp [List.filter_cons, ih]

theorem batches_of_join {α : Type} (paths : List α) (n : Nat) (hn : 0 < n) :
    (batches_of paths n).flatten = paths := by
  obtain ⟨m, rfl⟩ : ∃ m, n = m + 1 := ⟨n - 1, (Nat.succ_pred_eq_of_pos hn).symm⟩
  unfold batches_of
  rw [join_filter_not_isEmpty, array_split_join]

theorem join_map_map {α β : Type} (g : α → β) (L : List (List α)) :
    (L.map (List.map g)).flatten = L.flatten.map g := by
  induction L with
  | nil => rfl
  | cons x xs ih =>
      rw [List.map_cons, List.flatten_cons, List.flatten_cons, List.map_append, ih]

theorem load_to_ram_pos {α : Type} (lb : List FPath → α) (paths : List FPath)
    (cpu_count : Int) (h : 4 < cpu_count) :
    load_to_ram lb paths cpu_count
      = (Except.ok ((batches_of paths (cpu_count - 4).toNat).map lb),
         (batches_of paths (cpu_count - 4).toNat).flatten) := by
  have hneg : ¬(cpu_count - 4 ≤ 0) := by omega
  simp [load_to_ram, hneg]

theorem load_to_ram_le {α : Type} (lb : List FPath → α) (paths : List FPath)
    (cpu_count : Int) (h : cpu_count ≤ 4) :
    load_to_ram lb paths cpu_count = (Except.error PyErr.valueError, []) := by
  have hle : cpu_count - 4 ≤ 0 := by omega
  simp [load_to_ram, hle]

theorem load_to_ram_error {α : Type} (lb : List FPath → α) (paths : List FPath)
    (cpu_count : Int) (e : PyErr) (tr : List FPath)
    (h : load_to_ram lb paths cpu_count = (Except.error e, tr)) :
    e = PyErr.valueError := by
  by_cases hc : cpu_count ≤ 4
  · rw [load_to_ram_le lb paths cpu_count hc] at h
    exact (Except.error.inj (congrArg Prod.fst h)).symm
  · rw [load_to_ram_pos lb paths cpu_count (by omega)] at h
    exact absurd (congrArg Prod.fst h) (by simp)

theorem flatten_length_uniform {α : Type} (L : List (List α)) (n : Nat)
    (h : ∀ s ∈ L, s.length = n) : L.flatten.length = L.length * n := by
  induction L with
  | nil => simp
  | cons s rest ih =>
      rw [List.flatten_cons, List.length_append, h s (by simp),
        ih (fun x hx => h x (by simp [hx])), List.length_cons]
      ring

theorem flatten_getD_uniform {α : Type} (L : List (List α)) (n : Nat)
    (h : ∀ s ∈ L, s.length = n) (q r : Nat) (hq : q < L.length) (hr : r < n)
    (d : α) :
    L.flatten.getD (q * n + r) d = (L.getD q []).getD r d := by
  induction L generalizing q with
  | nil => simp at hq
  | cons s rest ih =>
      have hs : s.length = n := h s (by simp)
      cases q with
      | zero =>
          rw [List.flatten_cons, Nat.zero_mul, Nat.zero_add,
            List.getD_append _ _ d r (by omega)]
          rfl
      | succ q' =>
          have hidx : (q' + 1) * n + r = s.length + (q' * n + r) := by
            rw [hs]; ring
          rw [List.flatten_cons, hidx,
            List.getD_append_right _ _ d _ (by omega),
            Nat.add_sub_cancel_left]
          exact ih (fun x hx => h x (by simp [hx])) q' (by simpa using hq)

theorem range_getD (n i : Nat) (h : i < n) (d : Nat) :
    (List.range n).getD i d = i := by
  rw [List.getD_eq_getElem _ _ (by simpa using h)]
  exact List.getElem_range i _

theorem getD_map_lt {α β : Type} (f : α → β) (l : List α) (idx : Nat)
    (h : idx < l.length) (d : β) (d0 : α) :
    (l.map f).getD idx d = f (l.getD idx d0) := by
  rw [List.getD_eq_getElem _ _ (by simpa using h), List.getD_eq_getElem _ _ h,
    List.getElem_map]

theorem set_append_singleton {α : Type} (l : List α) (x y : α) :
    (l ++ [x]).set l.length y = l ++ [y] := by
  induction l with
  | nil => rfl
  | cons a as ih => simp [List.set_cons_succ, ih]

theorem getD_append_last {α : Type} (l : List α) (x d : α) :
    (l ++ [x]).getD l.length d = x := by
  rw [List.getD_append_right _ _ _ _ (Nat.le_refl _)]
  simp

theorem other_index_lt (L n idx other : Nat) (hidx : idx < L * n)
    (hother : other < L) : other * n + idx % n < L * n := by
  have hpos : 0 < n := by
    rcases Nat.eq_zero_or_pos n with h0 | h
    · subst h0; simp at hidx
    · exact h
  have h1 : idx % n < n := Nat.mod_lt _ hpos
  have h2 : (other + 1) * n ≤ L * n := Nat.mul_le_mul_right _ (by omega)
  rw [Nat.succ_mul] at h2
  omega

/-- Claim C3: for every non-empty list of paths and every positive batch count, the
batch partitioning of `load_to_ram` (`np.array_split` into `num_cpus` parts,
then discarding empty parts) is lossless and order-preserving: concatenating
the batches in order yields exactly the original paths list. -/
theorem claim_C3 (paths : List FPath) (num_cpus : Nat) (hne : paths ≠ [])
    (hn : 0 < num_cpus) : (batches_of paths num_cpus).flatten = paths :=
  batches_of_join paths num_cpus hn

theorem claim_C3_witness :
    (["a", "b", "c"] : List FPath) ≠ [] ∧ 0 < 2 ∧
      (batches_of (["a", "b", "c"] : List FPath) 2).flatten = ["a", "b", "c"] :=
  ⟨by decide, by decide, claim_C3 ["a", "b", "c"] 2 (by decide) (by decide)⟩

/-- Claim C6: for every widen factor and each supported input size
`inp_size ∈ {128, 256, 512}`, the number of stride-2 downsampling groups of
the `WideResNetAE` encoder equals the number of stride-2 upsampling groups of
the decoder (3, 4 and 5 respectively), and `forward` maps a spatial size of
`inp_size` to the same spatial size with one output channel. -/
theorem claim_C6 : ∀ w : Nat,
    (downCount w 128 = 3 ∧ upCount w 128 = 3
      ∧ forwardOutSize w 128 = 128 ∧ outChannels w 128 = 1)
    ∧ (downCount w 256 = 4 ∧ upCount w 256 = 4
      ∧ forwardOutSize w 256 = 256 ∧ outChannels w 256 = 1)
    ∧ (downCount w 512 = 5 ∧ upCount w 512 = 5
      ∧ forwardOutSize w 512 = 512 ∧ outChannels w 512 = 1) := by
  intro w
  refine ⟨⟨rfl, rfl, ?_, rfl⟩, ⟨rfl, rfl, ?_, rfl⟩, ⟨rfl, rfl, ?_, rfl⟩⟩ <;>
    simp [forwardOutSize, decOutSize, encOutSize, encGroups, decGroups,
      basicBlockOut, upsampleBlockOut, conv2dOut, wrnChannels]

/-- Claim C10: `load_to_ram` sets `num_cpus = os.cpu_count() - 4` unconditionally
(no clamping), so it raises `ValueError` exactly when `os.cpu_count() ≤ 4`,
before any file is read; with at most 4 CPUs every dataset constructor
(`TrainDataset`, `TestDataset`, and `PatchSwapDataset` on a valid body
region) fails the same way with no file loaded. -/
theorem claim_C10 {α : Type} (lb : List FPath → α) (paths : List FPath)
    (g gseg : FPath → Scan) (files : List FPath) (cpu_count : Int) :
    ((load_to_ram lb paths cpu_count).1 = Except.error PyErr.valueError
      ↔ cpu_count ≤ 4)
    ∧ (cpu_count ≤ 4 →
        load_to_ram lb paths cpu_count = (Except.error PyErr.valueError, [])
        ∧ TrainDataset.init g files cpu_count
            = (Except.error PyErr.valueError, [])
        ∧ TestDataset.init g gseg files cpu_count
            = (Except.error PyErr.valueError, [])
        ∧ ∀ data, (data = "brain" ∨ data = "abdom") →
            PatchSwapDataset.init g files cpu_count data
              = (Except.error PyErr.valueError, [])) := by
  constructor
  · constructor
    · intro h
      by_contra hc
      rw [load_to_ram_pos lb paths cpu_count (by omega)] at h
      exact absurd h (by simp)
    · intro hc
      rw [load_to_ram_le lb paths cpu_count hc]
  · intro hc
    refine ⟨load_to_ram_le lb paths cpu_count hc, ?_, ?_, ?_⟩
    · rw [TrainDataset.init, load_to_ram_le _ files cpu_count hc]
    · rw [TestDataset.init, load_to_ram_le _ files cpu_count hc]
    · intro data hdata
      rw [PatchSwapDataset.init, if_pos hdata,
        load_to_ram_le _ files cpu_count hc]

/-- Claim C7: `PatchSwapDataset.__init__` raises `AssertionError` exactly when
`data` is neither `"brain"` nor `"abdom"` (its other failure modes raise
different exceptions), and when it does, the assertion fires before any file
is loaded and before any dataset state is built; `get_train_files` and
`get_test_files` enforce the same assertion on `body_region`. -/
theorem claim_C7 (g : FPath → Scan) (files : List FPath) (cpu_count : Int)
    (data : String) (glob : String → List FPath) (root region : String) :
    ((PatchSwapDataset.init g files cpu_count data).1
        = Except.error PyErr.assertionError
      ↔ ¬(data = "brain" ∨ data = "abdom"))
    ∧ (¬(data = "brain" ∨ data = "abdom") →
        PatchSwapDataset.init g files cpu_count data
          = (Except.error PyErr.assertionError, []))
    ∧ (get_train_files glob root region = Except.error PyErr.assertionError
        ↔ ¬(region = "brain" ∨ region = "abdom"))
    ∧ (get_test_files glob root region = Except.error PyErr.assertionError
        ↔ ¬(region = "brain" ∨ region = "abdom")) := by
  refine ⟨⟨?_, ?_⟩, ?_, ?_, ?_⟩
  · intro h hd
    rw [PatchSwapDataset.init, if_pos hd] at h
    rcases hlr : load_to_ram (PatchSwapDataset.load_batch g) files cpu_count
      with ⟨res, tr⟩
    rw [hlr] at h
    cases res with
    | error e =>
        have he : e = PyErr.valueError :=
          load_to_ram_error _ files cpu_count e tr hlr
        subst he
        exact absurd h (by simp)
    | ok res =>
        cases hfl : res.flatten with
        | nil => simp [PatchSwapDataset.mkDS, hfl] at h
        | cons s0 rest => simp [PatchSwapDataset.mkDS, hfl] at h
  · intro hnd
    rw [PatchSwapDataset.init, if_neg hnd]
  · intro hnd
    rw [PatchSwapDataset.init, if_neg hnd]
  · constructor
    · intro h hd
      rw [get_train_files, if_pos hd] at h
      exact absurd h (by simp)
    · intro hnd
      rw [get_train_files, if_neg hnd]
  · constructor
    · intro h hd
      rw [get_test_files, if_pos hd] at h
      exact absurd h (by simp)
    · intro hnd
      rw [get_test_files, if_neg hnd]

/-- Claim C4: with enough CPUs, the multiprocess preloading refines the sequential
reference: the flattened result of `load_to_ram` equals `load_batch` applied
to the files one by one in their original order, so `TrainDataset.samples`
(and likewise `PatchSwapDataset.samples`) is the in-order concatenation of
the per-file slice sequences. -/
theorem claim_C4 (g : FPath → Scan) (files : List FPath) (cpu_count : Int)
    (h : 4 < cpu_count) :
    (∀ res tr,
        load_to_ram (TrainDataset.load_batch g) files cpu_count
          = (Except.ok res, tr) →
        res.flatten = sequentialLoad g files)
    ∧ (TrainDataset.init g files cpu_count).1
        = Except.ok (sequentialLoad g files).flatten
    ∧ (∀ ds tr,
        PatchSwapDataset.init g files cpu_count "brain" = (Except.ok ds, tr) →
        ds.heap = (sequentialLoad g files).flatten
        ∧ ds.samples = List.range (sequentialLoad g files).flatten.length) := by
  have hb : (batches_of files (cpu_count - 4).toNat).flatten = files :=
    batches_of_join files _ (by omega)
  have hres : ((batches_of files (cpu_count - 4).toNat).map
      (TrainDataset.load_batch g)).flatten = sequentialLoad g files := by
    rw [show TrainDataset.load_batch g = List.map g from rfl, join_map_map, hb]
    rfl
  have hl := load_to_ram_pos (TrainDataset.load_batch g) files cpu_count h
  refine ⟨?_, ?_, ?_⟩
  · intro res tr heq
    rw [hl, Prod.mk.injEq] at heq
    obtain ⟨h1, -⟩ := heq
    rw [← Except.ok.inj h1, hres]
  · rw [TrainDataset.init, hl]
    simp only
    rw [hres]
  · intro ds tr heq
    have hl2 := load_to_ram_pos (PatchSwapDataset.load_batch g) files cpu_count h
    rw [PatchSwapDataset.init, if_pos (Or.inl rfl), hl2] at heq
    simp only at heq
    have hres2 : ((batches_of files (cpu_count - 4).toNat).map
        (PatchSwapDataset.load_batch g)).flatten = sequentialLoad g files := by
      rw [show PatchSwapDataset.load_batch g = List.map g from rfl,
        join_map_map, hb]
      rfl
    rw [Prod.mk.injEq] at heq
    obtain ⟨h1, -⟩ := heq
    rw [hres2] at h1
    cases hsc : sequentialLoad g files with
    | nil => rw [hsc] at h1; simp [PatchSwapDataset.mkDS] at h1
    | cons s0 rest =>
        rw [hsc] at h1
        simp only [PatchSwapDataset.mkDS, Except.ok.injEq] at h1
        rw [← h1]
        exact ⟨rfl, rfl⟩

/-- Claim C9: when `TestDataset.__init__` succeeds, the two parallel lists have
equal length and stay index-aligned: `__getitem__(idx)` returns the scan pair
and the segmentation pair of the same source file `files[idx]`, and the
segmentation path is the sample path with every occurrence of `"test"`
replaced by `"test_label/pixel"`. -/
theorem claim_C9 (g gseg : FPath → Scan) (files : List FPath)
    (cpu_count : Int) (ds : TestDS) (tr : List FPath)
    (hok : TestDataset.init g gseg files cpu_count = (Except.ok ds, tr)) :
    ds.samples.length = ds.segmentations.length
    ∧ ∀ idx, idx < files.length →
        TestDataset.getitem ds idx
          = ((files.getD idx "", g (files.getD idx "")),
             (pyReplace (files.getD idx "") "test" "test_label/pixel",
              gseg (pyReplace (files.getD idx "") "test" "test_label/pixel"))) := by
  have hc : 4 < cpu_count := by
    by_contra hc
    rw [TestDataset.init,
      load_to_ram_le (TestDataset.load_batch g gseg) files cpu_count
        (by omega)] at hok
    exact absurd (congrArg Prod.fst hok) (by simp)
  have hb : (batches_of files (cpu_count - 4).toNat).flatten = files :=
    batches_of_join files _ (by omega)
  have hl := load_to_ram_pos (TestDataset.load_batch g gseg) files cpu_count hc
  rw [TestDataset.init, hl] at hok
  simp only [Prod.mk.injEq] at hok
  obtain ⟨h1, -⟩ := hok
  have hds := Except.ok.inj h1
  have hsmp : ds.samples = files.map (fun f => (f, g f)) := by
    rw [← hds]
    show (((batches_of files (cpu_count - 4).toNat).map
        (TestDataset.load_batch g gseg)).map TestBatch.samples).flatten
      = files.map (fun f => (f, g f))
    rw [List.map_map,
      show (TestBatch.samples ∘ TestDataset.load_batch g gseg)
          = List.map (fun f => (f, g f)) from rfl,
      join_map_map, hb]
  have hseg : ds.segmentations = files.map (fun f =>
      (pyReplace f "test" "test_label/pixel",
       gseg (pyReplace f "test" "test_label/pixel"))) := by
    rw [← hds]
    show (((batches_of files (cpu_count - 4).toNat).map
        (TestDataset.load_batch g gseg)).map TestBatch.segmentations).flatten
      = files.map (fun f =>
          (pyReplace f "test" "test_label/pixel",
           gseg (pyReplace f "test" "test_label/pixel")))
    rw [List.map_map,
      show (TestBatch.segmentations ∘ TestDataset.load_batch g gseg)
          = List.map (fun f =>
              (pyReplace f "test" "test_label/pixel",
               gseg (pyReplace f "test" "test_label/pixel"))) from rfl,
      join_map_map, hb]
  constructor
  · rw [hsmp, hseg, List.length_map, List.length_map]
  · intro idx hidx
    rw [TestDataset.getitem, hsmp, hseg,
      getD_map_lt _ files idx hidx _ "", getD_map_lt _ files idx hidx _ ""]

theorem claim_C9_witness :
    TestDataset.init (fun _ => []) (fun _ => []) ["x/test/latest.nii.gz"] 5
      = (Except.ok
          { samples := [("x/test/latest.nii.gz", [])]
          , segmentations :=
              [("x/test_label/pixel/latest_label/pixel.nii.gz", [])] },
         ["x/test/latest.nii.gz"])
    ∧ pyReplace "x/test/latest.nii.gz" "test" "test_label/pixel"
        = "x/test_label/pixel/latest_label/pixel.nii.gz"
    ∧ TestDataset.getitem
        { samples := [("x/test/latest.nii.gz", [])]
        , segmentations :=
            [("x/test_label/pixel/latest_label/pixel.nii.gz", [])] } 0
      = ((["x/test/latest.nii.gz"].getD 0 "",
          (fun _ => ([] : Scan)) (["x/test/latest.nii.gz"].getD 0 "")),
         (pyReplace (["x/test/latest.nii.gz"].getD 0 "") "test"
            "test_label/pixel",
          (fun _ => ([] : Scan))
            (pyReplace (["x/test/latest.nii.gz"].getD 0 "") "test"
              "test_label/pixel"))) :=
  ⟨rfl, rfl,
   (claim_C9 (fun _ => []) (fun _ => []) ["x/test/latest.nii.gz"] 5
      { samples := [("x/test/latest.nii.gz", [])]
      , segmentations :=
          [("x/test_label/pixel/latest_label/pixel.nii.gz", [])] }
      ["x/test/latest.nii.gz"] rfl).2 0 (by decide)⟩

theorem claim_C4_witness :
    (4 : Int) < 5
    ∧ (TrainDataset.init (fun _ => [[[(0 : ℚ)]]]) ["a"] 5).1
        = Except.ok (sequentialLoad (fun _ => [[[(0 : ℚ)]]]) ["a"]).flatten :=
  ⟨by decide, (claim_C4 (fun _ => [[[(0 : ℚ)]]]) ["a"] 5 (by decide)).2.1⟩

/-- Claim C2: under the precondition that every loaded scan has `n_slices` slices
(the value taken from the first scan), for every valid `idx` and every
`other_scan` the random draw can return, the partner index
`other_scan * n_slices + idx % n_slices` is within bounds, so
`self.samples[other_idx]` in `__getitem__` never goes out of bounds. -/
theorem claim_C2 (scans : List Scan) (data : String) (ds : PatchSwapDS)
    (hds : PatchSwapDataset.mkDS scans data = Except.ok ds)
    (huni : ∀ s ∈ scans, s.length = ds.n_slices)
    (idx : Nat) (hidx : idx < ds.samples.length)
    (other_scan : Nat) (hos : other_scan ≤ ds.n_scans - 1) :
    other_scan * ds.n_slices + idx % ds.n_slices < ds.samples.length := by
  cases scans with
  | nil => simp [PatchSwapDataset.mkDS] at hds
  | cons s0 rest =>
      simp only [PatchSwapDataset.mkDS, Except.ok.injEq] at hds
      subst hds
      have huni' : ∀ s ∈ s0 :: rest, s.length = s0.length := huni
      have hflat := flatten_length_uniform (s0 :: rest) s0.length huni'
      have hidxm : idx < (s0 :: rest).length * s0.length := by
        rw [← hflat]
        simpa [List.length_range] using hidx
      have hos' : other_scan < (s0 :: rest).length := by
        have h2 : other_scan ≤ (s0 :: rest).length - 1 := hos
        simp only [List.length_cons] at h2 ⊢
        omega
      show other_scan * s0.length + idx % s0.length
        < (List.range (s0 :: rest).flatten.length).length
      rw [List.length_range, hflat]
      exact other_index_lt _ _ _ _ hidxm hos'

theorem claim_C2_witness :
    PatchSwapDataset.mkDS demoScans "brain" = Except.ok demoDS
    ∧ 1 * demoDS.n_slices + 0 % demoDS.n_slices < demoDS.samples.length :=
  ⟨rfl, claim_C2 demoScans "brain" demoDS rfl (by decide) 0 (by decide) 1
    (by decide)⟩

/-- Claim C1: for every valid `idx`, `__getitem__` exchanges a patch between the
slice at `idx` (slice `idx % n_slices` of scan `idx / n_slices`) and the
slice of scan `other_scan` at the same within-scan position `idx % n_slices`,
whose flat index is `other_scan * n_slices + idx % n_slices`. -/
theorem claim_C1 (scans : List Scan) (data : String) (ds : PatchSwapDS)
    (hds : PatchSwapDataset.mkDS scans data = Except.ok ds)
    (huni : ∀ s ∈ scans, s.length = ds.n_slices)
    (idx : Nat) (hidx : idx < ds.samples.length)
    (other_scan : Nat) (hos : other_scan ≤ ds.n_scans - 1)
    (t : ℚ) (mask : List (List Bool)) :
    (PatchSwapDataset.getitem ds idx other_scan t mask).1.1
      = unsqueeze (patch_exchange t
          ((scans.getD (idx / ds.n_slices) []).getD (idx % ds.n_slices) [])
          ((scans.getD other_scan []).getD (idx % ds.n_slices) []) mask).1
    ∧ (other_scan * ds.n_slices + idx % ds.n_slices) % ds.n_slices
        = idx % ds.n_slices
    ∧ (other_scan * ds.n_slices + idx % ds.n_slices) / ds.n_slices
        = other_scan := by
  cases scans with
  | nil => simp [PatchSwapDataset.mkDS] at hds
  | cons s0 rest =>
      simp only [PatchSwapDataset.mkDS, Except.ok.injEq] at hds
      subst hds
      have huni' : ∀ s ∈ s0 :: rest, s.length = s0.length := huni
      have hflat := flatten_length_uniform (s0 :: rest) s0.length huni'
      have hidx' : idx < (s0 :: rest).flatten.length := by
        simpa [List.length_range] using hidx
      have hidxm : idx < (s0 :: rest).length * s0.length := by
        rw [← hflat]; exact hidx'
      have hpos : 0 < s0.length := by
        rcases Nat.eq_zero_or_pos s0.length with h0 | h
        · rw [h0, Nat.mul_zero] at hidxm; omega
        · exact h
      have hos' : other_scan < (s0 :: rest).length := by
        have h2 : other_scan ≤ (s0 :: rest).length - 1 := hos
        simp only [List.length_cons] at h2 ⊢
        omega
      have hmod : idx % s0.length < s0.length := Nat.mod_lt _ hpos
      have hq : idx / s0.length < (s0 :: rest).length :=
        (Nat.div_lt_iff_lt_mul hpos).mpr hidxm
      have hoi : other_scan * s0.length + idx % s0.length
          < (s0 :: rest).flatten.length := by
        rw [hflat]
        exact other_index_lt _ _ _ _ hidxm hos'
      have hA : (s0 :: rest).flatten.getD idx []
          = ((s0 :: rest).getD (idx / s0.length) []).getD (idx % s0.length) [] := by
        have h1 := flatten_getD_uniform (s0 :: rest) s0.length huni'
          (idx / s0.length) (idx % s0.length) hq hmod []
        rw [Nat.div_add_mod' idx s0.length] at h1
        exact h1
      have hB : (s0 :: rest).flatten.getD
            (other_scan * s0.length + idx % s0.length) []
          = ((s0 :: rest).getD other_scan []).getD (idx % s0.length) [] :=
        flatten_getD_uniform (s0 :: rest) s0.length huni' other_scan
          (idx % s0.length) hos' hmod []
      refine ⟨?_, ?_, ?_⟩
      · simp only [PatchSwapDataset.getitem, PatchSwapDataset.create_anomaly]
        rw [range_getD _ _ hidx' 0, range_getD _ _ hoi 0, getD_append_last,
          List.getD_append _ _ [] _ hoi, hA, hB]
      · show (other_scan * s0.length + idx % s0.length) % s0.length
          = idx % s0.length
        rw [Nat.mul_comm, Nat.mul_add_mod, Nat.mod_eq_of_lt hmod]
      · show (other_scan * s0.length + idx % s0.length) / s0.length
          = other_scan
        rw [Nat.mul_comm, Nat.mul_add_div hpos, Nat.div_eq_of_lt hmod,
          Nat.add_zero]

theorem claim_C1_witness :
    (PatchSwapDataset.getitem demoDS 0 1 (1/2) [[true]]).1.1
      = unsqueeze (patch_exchange (1/2)
          ((demoScans.getD (0 / demoDS.n_slices) []).getD
            (0 % demoDS.n_slices) [])
          ((demoScans.getD 1 []).getD (0 % demoDS.n_slices) []) [[true]]).1
    ∧ (1 * demoDS.n_slices + 0 % demoDS.n_slices) % demoDS.n_slices
        = 0 % demoDS.n_slices
    ∧ (1 * demoDS.n_slices + 0 % demoDS.n_slices) / demoDS.n_slices = 1 :=
  claim_C1 demoScans "brain" demoDS rfl (by decide) 0 (by decide) 1
    (by decide) (1/2) [[true]]

/-- Claim C5: for every valid `idx`, `__getitem__` returns the pair obtained by
applying `patch_exchange` to (a copy of) the stored slice and the partner
slice together with the label mask, each with a channel dimension of size 1
prepended; and the stored buffers are not mutated — in particular
`self.samples[idx]` still holds its original content afterwards, because the
slice is copied before corruption. -/
theorem claim_C5 (scans : List Scan) (data : String) (ds : PatchSwapDS)
    (hds : PatchSwapDataset.mkDS scans data = Except.ok ds)
    (huni : ∀ s ∈ scans, s.length = ds.n_slices)
    (idx : Nat) (hidx : idx < ds.samples.length)
    (other_scan : Nat) (hos : other_scan ≤ ds.n_scans - 1)
    (t : ℚ) (mask : List (List Bool)) :
    (PatchSwapDataset.getitem ds idx other_scan t mask).1
      = (unsqueeze (patch_exchange t
            (ds.heap.getD (ds.samples.getD idx 0) [])
            (ds.heap.getD (ds.samples.getD
               (other_scan * ds.n_slices + idx % ds.n_slices) 0) []) mask).1,
         unsqueeze (patch_exchange t
            (ds.heap.getD (ds.samples.getD idx 0) [])
            (ds.heap.getD (ds.samples.getD
               (other_scan * ds.n_slices + idx % ds.n_slices) 0) []) mask).2)
    ∧ (∀ j, j < ds.heap.length →
        ((PatchSwapDataset.getitem ds idx other_scan t mask).2).heap.getD j []
          = ds.heap.getD j [])
    ∧ ((PatchSwapDataset.getitem ds idx other_scan t mask).2).samples
        = ds.samples
    ∧ ((PatchSwapDataset.getitem ds idx other_scan t mask).2).heap.getD
        (ds.samples.getD idx 0) []
        = ds.heap.getD (ds.samples.getD idx 0) [] := by
  cases scans with
  | nil => simp [PatchSwapDataset.mkDS] at hds
  | cons s0 rest =>
      simp only [PatchSwapDataset.mkDS, Except.ok.injEq] at hds
      subst hds
      have huni' : ∀ s ∈ s0 :: rest, s.length = s0.length := huni
      have hflat := flatten_length_uniform (s0 :: rest) s0.length huni'
      have hidx' : idx < (s0 :: rest).flatten.length := by
        simpa [List.length_range] using hidx
      have hidxm : idx < (s0 :: rest).length * s0.length := by
        rw [← hflat]; exact hidx'
      have hos' : other_scan < (s0 :: rest).length := by
        have h2 : other_scan ≤ (s0 :: rest).length - 1 := hos
        simp only [List.length_cons] at h2 ⊢
        omega
      have hoi : other_scan * s0.length + idx % s0.length
          < (s0 :: rest).flatten.length := by
        rw [hflat]
        exact other_index_lt _ _ _ _ hidxm hos'
      refine ⟨?_, ?_, ?_, ?_⟩
      · simp only [PatchSwapDataset.getitem, PatchSwapDataset.create_anomaly]
        rw [getD_append_last, List.getD_append _ _ []
          ((List.range (s0 :: rest).flatten.length).getD
            (other_scan * s0.length + idx % s0.length) 0)
          (by rw [range_getD _ _ hoi 0]; exact hoi)]
      · intro j hj
        simp only [PatchSwapDataset.getitem]
        rw [set_append_singleton, List.getD_append _ _ [] j hj]
      · simp only [PatchSwapDataset.getitem]
      · simp only [PatchSwapDataset.getitem]
        rw [range_getD _ _ hidx' 0, set_append_singleton,
          List.getD_append _ _ [] idx hidx']

theorem claim_C5_witness :
    (PatchSwapDataset.getitem demoDS 0 1 (1/2) [[true]]).1
      = (unsqueeze (patch_exchange (1/2)
            (demoDS.heap.getD (demoDS.samples.getD 0 0) [])
            (demoDS.heap.getD (demoDS.samples.getD
               (1 * demoDS.n_slices + 0 % demoDS.n_slices) 0) []) [[true]]).1,
         unsqueeze (patch_exchange (1/2)
            (demoDS.heap.getD (demoDS.samples.getD 0 0) [])
            (demoDS.heap.getD (demoDS.samples.getD
               (1 * demoDS.n_slices + 0 % demoDS.n_slices) 0) []) [[true]]).2)
    ∧ ((PatchSwapDataset.getitem demoDS 0 1 (1/2) [[true]]).2).heap.getD 0 []
        = demoDS.heap.getD 0 []
    ∧ ((PatchSwapDataset.getitem demoDS 0 1 (1/2) [[true]]).2).samples
        = demoDS.samples
    ∧ ((PatchSwapDataset.getitem demoDS 0 1 (1/2) [[true]]).2).heap.getD
        (demoDS.samples.getD 0 0) []
        = demoDS.heap.getD (demoDS.samples.getD 0 0) [] := by
  have h := claim_C5 demoScans "brain" demoDS rfl (by decide) 0 (by decide) 1
    (by decide) (1/2) [[true]]
  exact ⟨h.1, h.2.1 0 (by decide), h.2.2.1, h.2.2.2⟩

theorem claim_C6_witness :
    downCount 3 128 = 3 ∧ upCount 3 128 = 3
      ∧ forwardOutSize 3 128 = 128 ∧ outChannels 3 128 = 1 :=
  (claim_C6 3).1

theorem claim_C7_witness :
    PatchSwapDataset.init (fun _ => []) [] 5 "liver"
      = (Except.error PyErr.assertionError, [])
    ∧ get_train_files (fun _ => []) "root" "liver"
      = Except.error PyErr.assertionError
    ∧ get_test_files (fun _ => []) "root" "liver"
      = Except.error PyErr.assertionError :=
  have h := claim_C7 (fun _ => []) [] 5 "liver" (fun _ => []) "root" "liver"
  ⟨h.2.1 (by decide), h.2.2.1.mpr (by decide), h.2.2.2.mpr (by decide)⟩

theorem claim_C10_witness :
    load_to_ram (fun l => l) ["p"] 4 = (Except.error PyErr.valueError, [])
    ∧ TrainDataset.init (fun _ => []) ["p"] 4
      = (Except.error PyErr.valueError, [])
    ∧ PatchSwapDataset.init (fun _ => []) ["p"] 4 "brain"
      = (Except.error PyErr.valueError, []) :=
  have h := claim_C10 (fun l => l) ["p"] (fun _ => []) (fun _ => []) ["p"]
    (4 : Int)
  have h2 := h.2 (by decide)
  ⟨h2.1, h2.2.1, h2.2.2.2 "brain" (Or.inl rfl)⟩
